import Mathlib

/-!
Verification development for the moretranz order-intake pipeline.

The Python source (app/services/email_processor.py, app/services/printer_service.py,
app/models/order.py) is shallowly embedded below.  Email bodies, filenames and URLs
are modelled as `List Char`; the specific regular expressions used by the source are
embedded as executable scanning functions that mirror the Python `re` semantics
(leftmost match, greedy/lazy quantifier order) of each concrete pattern.  The ambient
clock consumed by `datetime.utcnow()` is passed in explicitly as a `tick` parameter,
and a value produced by the fallback is tagged with the tick at which it was read.
-/

namespace Moretranz

/-- Email bodies, field values, filenames and URLs are character lists. -/
abbrev Str := List Char

/-- Python `\s` on ASCII input: space, tab, newline, carriage return, vertical tab, form feed. -/
def isWs (c : Char) : Bool :=
  c = ' ' || c = '\t' || c = '\n' || c = '\r' || c = '\x0b' || c = '\x0c'

/-- Leading-whitespace run length (the maximal extent a greedy `\s*` can take). -/
def wsCount (s : Str) : Nat := (s.takeWhile isWs).length

/-- Python `str.strip()`: drop whitespace from both ends. -/
def trimWs (s : Str) : Str :=
  ((s.dropWhile isWs).reverse.dropWhile isWs).reverse

/-- Drop trailing whitespace only (used when a regex consumes `\s*` before an anchor). -/
def trimEndWs (s : Str) : Str := (s.reverse.dropWhile isWs).reverse

/-- ASCII lowercase of a string, for the source's case-insensitive comparisons. -/
def lowerStr (s : Str) : Str := s.map Char.toLower

/-- Case-insensitive "starts with": the source compiles several patterns with re.IGNORECASE. -/
def ciStarts (pat : Str) (s : Str) : Bool := lowerStr (s.take pat.length) = pat

/-- Python `needle in haystack` substring test. -/
def containsSub (needle : Str) : Str → Bool
  | [] => needle.isPrefixOf []
  | c :: rest => needle.isPrefixOf (c :: rest) || containsSub needle rest

/-- Python `str.split(sep)` for a one-character separator (always a nonempty result list). -/
def splitOnChar (sep : Char) : Str → List Str
  | [] => [[]]
  | c :: rest =>
    let parts := splitOnChar sep rest
    if c = sep then [] :: parts
    else match parts with
      | h :: t => (c :: h) :: t
      | [] => [[c]]

/-- Characters admitted by the PO-number cleanup class `[A-Za-z0-9_-]`. -/
def isAllowedPoChar (c : Char) : Bool := c.isAlpha || c.isDigit || c = '-' || c = '_'

/-- Regex `\w` on ASCII input: letters, digits, underscore (used for `\b` boundaries). -/
def isWordChar (c : Char) : Bool := c.isAlpha || c.isDigit || c = '_'

/-! ## PO-number extraction (email_processor.py lines 457-468)

`re.search(r"PO Number:\s*([^\r\n]+?)\s*(?=(?:\r?\n|Order Type:))", body, re.IGNORECASE)`
followed by the three cleanup steps. -/

/-- The lookahead `(?=(?:\r?\n|Order Type:))` of the PO-number pattern
(the whole pattern is case-insensitive). -/
def poLookahead (s : Str) : Bool :=
  match s with
  | '\n' :: _ => true
  | '\r' :: '\n' :: _ => true
  | _ => ciStarts (("order type:").data) s

/-- Matching `\s*([^\r\n]+?)\s*(?=...)` at a fixed position just after the `PO Number:`
label: the first `\s*` is greedy (longest first), the capture is lazy (shortest first),
and any length of the second `\s*` that reaches the lookahead suffices.  Returns the
captured group. -/
def poTryCapture (s : Str) : Option Str :=
  let wmax := wsCount s
  (List.range (wmax + 1)).findSome? fun j =>
    let t := s.drop (wmax - j)
    let kmax := (t.takeWhile (fun c => !(c = '\r' || c = '\n'))).length
    (List.range kmax).findSome? fun k0 =>
      let k := k0 + 1
      let u := t.drop k
      let bmax := wsCount u
      if (List.range (bmax + 1)).any (fun j2 => poLookahead (u.drop (bmax - j2))) then
        some (t.take k)
      else none

/-- `re.search` for the PO-number pattern: leftmost position where the
case-insensitive label matches and the rest of the pattern succeeds. -/
def extractPoRaw (body : Str) : Option Str :=
  (List.range (body.length + 1)).findSome? fun i =>
    let t := body.drop i
    if ciStarts (("po number:").data) t then poTryCapture (t.drop 10) else none

/-- Index of the first `)` reachable without crossing a newline
(`.` in `\(.*?\)` does not match `\n`). -/
def findCloseIdx : Str → Option Nat
  | [] => none
  | c :: rest =>
    if c = ')' then some 0
    else if c = '\n' then none
    else (findCloseIdx rest).map (· + 1)

/-- Scanner for `re.sub(r"\(.*?\)", "", s)`: left-to-right, each `(` that has a
matching `)` on the same line is removed together with the enclosed text.  The
fuel argument only bounds the recursion (every step consumes at least one
character, so fuel = length always suffices and the fuel-exhausted branch is
unreachable); it keeps the scanner structurally recursive so that it reduces. -/
def stripParensGo : Nat → Str → Str
  | _, [] => []
  | 0, s => s
  | fuel + 1, c :: rest =>
    if c = '(' then
      match findCloseIdx rest with
      | some j => stripParensGo fuel (rest.drop (j + 1))
      | none => '(' :: stripParensGo fuel rest
    else c :: stripParensGo fuel rest

/-- `re.sub(r"\(.*?\)", "", s)`. -/
def stripParens (s : Str) : Str := stripParensGo s.length s

/-- `re.sub(r"\s*Order$", "", s, flags=re.IGNORECASE)`: drop a trailing
`Order` (any case) together with the whitespace run immediately before it. -/
def stripTrailOrderWord (s : Str) : Str :=
  if (("redro").data).isPrefixOf ((lowerStr s).reverse) then
    trimEndWs (s.take (s.length - 5))
  else s

/-- The remainder after the first two cleanup steps of lines 461-463: remove
parenthetical notes and strip, drop a trailing stray `Order` and strip. -/
def poRemainder (rawStripped : Str) : Str :=
  trimWs (stripTrailOrderWord (trimWs (stripParens rawStripped)))

/-- The PO cleanup of email_processor.py lines 459-466, applied to the stripped
raw capture: after `poRemainder`, keep the leading `[A-Za-z0-9_-]+` run
(`re.match`); when that leading match fails the remainder is returned unchanged. -/
def cleanPo (rawStripped : Str) : Str :=
  if (poRemainder rawStripped).takeWhile isAllowedPoChar = [] then poRemainder rawStripped
  else (poRemainder rawStripped).takeWhile isAllowedPoChar

/-- The raw value contains a parenthetical note: a `(` with a matching `)` on
the same line (exactly the shape `re.sub(r"\(.*?\)", ...)` removes). -/
def hasParenNote : Str → Bool
  | [] => false
  | c :: rest => (if c = '(' then (findCloseIdx rest).isSome else false) || hasParenNote rest

/-- The raw value ends with the stray word `Order` (case-insensitively, as the
`\s*Order$` substitution tests). -/
def endsWithOrderCI (s : Str) : Bool := (("redro").data).isPrefixOf ((lowerStr s).reverse)

/-- `po_number` as computed by `parse_order_details` (lines 457-468):
`group(1).strip()` fed through the cleanup; `None` when the search fails or when
the stripped capture is empty (`if raw_po:` treats the empty string as falsy). -/
def poNumberOf (body : Str) : Option Str :=
  match extractPoRaw body with
  | some g =>
    let raw := trimWs g
    if raw = [] then none else some (cleanPo raw)
  | none => none

/-! ## Label-value lines (parse_order_types, shipping-date line)

Both `Order Type:\s*(.+?)(?:\n|$)` and `Committed Shipping Date:\s*(.+?)(?:\n|$)`
share one shape: a literal label, a greedy `\s*` (backtracking when needed, since
`.` cannot match a newline), then a lazy capture that extends to the first newline
or to the end of the string. -/

/-- Matching `\s*(.+?)(?:\n|$)` at a fixed position after a label: try the longest
whitespace prefix first, shrinking until the capture (a nonempty run of
non-newline characters) succeeds. -/
def labelValueAt (s : Str) : Option Str :=
  let wmax := wsCount s
  (List.range (wmax + 1)).findSome? fun j =>
    let t := s.drop (wmax - j)
    let run := t.takeWhile (· ≠ '\n')
    if run = [] then none else some run

/-- `re.search(label + r"\s*(.+?)(?:\n|$)", body)` (case-sensitive): leftmost
label occurrence at which the value part also matches. -/
def labelValue (label : Str) (body : Str) : Option Str :=
  (List.range (body.length + 1)).findSome? fun i =>
    let t := body.drop i
    if label.isPrefixOf t then labelValueAt (t.drop label.length) else none

/-- Variant for the alternative pattern `Order Types?:` of parse_order_types:
the optional `s?` is greedy, so `Order Types:` is preferred over `Order Type:`
at the same position. -/
def labelValueOptS (body : Str) : Option Str :=
  (List.range (body.length + 1)).findSome? fun i =>
    let t := body.drop i
    if (("Order Types:").data).isPrefixOf t then labelValueAt (t.drop 12)
    else if (("Order Type:").data).isPrefixOf t then labelValueAt (t.drop 11)
    else none

/-- `[t.strip() for t in value.split("+")]`. -/
def splitTrimPlus (v : Str) : List Str := (splitOnChar '+' v).map trimWs

/-- `parse_order_types` (email_processor.py lines 128-148): the primary
`Order Type:` pattern, then the three alternative label spellings, else `[]`. -/
def parseOrderTypes (body : Str) : List Str :=
  match labelValue (("Order Type:").data) body with
  | some v => splitTrimPlus v
  | none =>
    match labelValueOptS body with
    | some v => splitTrimPlus v
    | none =>
      match labelValue (("Type:").data) body with
      | some v => splitTrimPlus v
      | none =>
        match labelValue (("Order:").data) body with
        | some v => splitTrimPlus v
        | none => []

/-- Line 499: `" + ".join(order_types) if order_types else "Unknown"`. -/
def orderTypeString (ts : List Str) : Str :=
  match ts with
  | [] => ("Unknown").data
  | _ => List.intercalate ((" + ").data) ts

/-! ## Quality-check flag (email_processor.py line 474)

`requires_qc = "Yes" in re.search(r"Requires Quality Check:\s*(Yes|No)", body).group(1)
 if re.search(r"Requires Quality Check:", body) else False`

When the label is present but no occurrence is followed by `Yes`/`No`, the inner
search returns `None` and `.group(1)` raises `AttributeError`; this propagates out
of `parse_order_details`, which is modelled as `Except.error ()`. -/

/-- The inner `re.search(r"Requires Quality Check:\s*(Yes|No)", body)`: leftmost
label occurrence followed (after greedy whitespace) by `Yes` or `No`. -/
def findQcValue (body : Str) : Option Str :=
  (List.range (body.length + 1)).findSome? fun i =>
    let t := body.drop i
    if (("Requires Quality Check:").data).isPrefixOf t then
      let u := (t.drop 23).dropWhile isWs
      if (("Yes").data).isPrefixOf u then some (("Yes").data)
      else if (("No").data).isPrefixOf u then some (("No").data)
      else none
    else none

/-- The quality-check extraction, with the `AttributeError` branch made explicit. -/
def qcFlag (body : Str) : Except Unit Bool :=
  if containsSub (("Requires Quality Check:").data) body then
    match findQcValue body with
    | some g => .ok (containsSub (("Yes").data) g)
    | none => .error ()
  else .ok false

/-! ## Delivery-address block (email_processor.py lines 150-168 and 477-478) -/

/-- Capture of `Delivery address:(.*?)(?=\n\n|\Z)` with re.DOTALL: everything up
to the first blank line (or the end); the capture may be empty. -/
def takeUntilBlankLine : Str → Str
  | '\n' :: '\n' :: _ => []
  | c :: rest => c :: takeUntilBlankLine rest
  | [] => []

/-- Leftmost `Delivery address:` occurrence with its captured section. -/
def extractAddressSection (body : Str) : Option Str :=
  (List.range (body.length + 1)).findSome? fun i =>
    let t := body.drop i
    if (("Delivery address:").data).isPrefixOf t then
      some (takeUntilBlankLine (t.drop 17))
    else none

/-- Scanner for `re.sub(r'\*([^*]+)\*', r'\1', text)`: unwrap `*emphasised*`
spans.  The `takeWhile` run stopped inside `rest` exactly when a closing `*`
exists.  Fuel = length always suffices (each step consumes a character). -/
def subEmphGo : Nat → Str → Str
  | _, [] => []
  | 0, s => s
  | fuel + 1, c :: rest =>
    if c = '*' then
      let run := rest.takeWhile (· ≠ '*')
      if run ≠ [] ∧ run.length < rest.length then
        run ++ subEmphGo fuel (rest.drop (run.length + 1))
      else '*' :: subEmphGo fuel rest
    else c :: subEmphGo fuel rest

/-- `re.sub(r'\*([^*]+)\*', r'\1', text)`. -/
def subEmph (s : Str) : Str := subEmphGo s.length s

/-- Scanner for `re.sub(r'<[^>]+>', '', text)`: delete HTML-tag-shaped spans. -/
def subTagsGo : Nat → Str → Str
  | _, [] => []
  | 0, s => s
  | fuel + 1, c :: rest =>
    if c = '<' then
      let run := rest.takeWhile (· ≠ '>')
      if run ≠ [] ∧ run.length < rest.length then
        subTagsGo fuel (rest.drop (run.length + 1))
      else '<' :: subTagsGo fuel rest
    else c :: subTagsGo fuel rest

/-- `re.sub(r'<[^>]+>', '', text)`. -/
def subTags (s : Str) : Str := subTagsGo s.length s

/-- Scanner for `re.sub(r'https?://[^\s]+', '', text)`: delete URLs (`https`
preferred, then `http`; at least one non-whitespace character must follow
`://`). -/
def subUrlsGo : Nat → Str → Str
  | _, [] => []
  | 0, s => s
  | fuel + 1, c :: rest =>
    let t := c :: rest
    if (("https://").data).isPrefixOf t then
      let run := (t.drop 8).takeWhile (fun x => !isWs x)
      if run = [] then c :: subUrlsGo fuel rest
      else subUrlsGo fuel ((t.drop 8).drop run.length)
    else if (("http://").data).isPrefixOf t then
      let run := (t.drop 7).takeWhile (fun x => !isWs x)
      if run = [] then c :: subUrlsGo fuel rest
      else subUrlsGo fuel ((t.drop 7).drop run.length)
    else c :: subUrlsGo fuel rest

/-- `re.sub(r'https?://[^\s]+', '', text)`. -/
def subUrls (s : Str) : Str := subUrlsGo s.length s

/-- `parse_address`: clean the block, split into stripped nonempty lines; two or
more lines give (name, joined rest), one line is a bare name, none gives blanks. -/
def parseAddress (text : Str) : Str × Str :=
  let cleaned := subUrls (subTags (subEmph text))
  let lines := ((splitOnChar '\n' (trimWs cleaned)).map trimWs).filter (· ≠ [])
  match lines with
  | l0 :: l1 :: rest => (l0, List.intercalate (("\n").data) (l1 :: rest))
  | [l0] => (l0, [])
  | [] => ([], [])

/-! ## Shipping-date parsing (email_processor.py lines 91-121)

`parse_date` normalises whitespace, truncates just after the first word-bounded
4-digit year, then tries `strptime` against four formats
(`"%A, %B %d, %Y"`, `"%A, %B %d %Y"`, `"%A, %b %d, %Y"`, `"%A, %b %d %Y"`);
any failure falls back to `datetime.utcnow()`.  The ambient clock is an explicit
`tick` parameter, and a fallback value is tagged with it. -/

/-- A value of the source's `datetime` type as far as the pipeline observes it:
either a calendar date produced by `strptime`, or a "current time" reading
tagged with the tick of the clock at the moment `datetime.utcnow()` ran. -/
inductive PyDateTime where
  | fromParts (year month day : Nat)
  | utcNow (tick : Nat)
deriving DecidableEq, Repr

/-- `re.sub(r"\s+", " ", s)`: collapse whitespace runs to single spaces. -/
def collapseWs (s : Str) : Str := go false s where
  go : Bool → Str → Str
    | _, [] => []
    | prevWs, c :: rest =>
      if isWs c then
        if prevWs then go true rest else ' ' :: go true rest
      else c :: go false rest

/-- The earliest end position of a word-bounded 4-digit run, for
`re.search(r"^(.*?\b\d{4})\b", cleaned)`: the smallest `i` whose four characters
are digits, preceded by start-of-string or a non-word character, and followed by
end-of-string or a non-word character.  Returns `i + 4`. -/
def yearEndIdx (s : Str) : Option Nat :=
  (List.range (s.length + 1)).findSome? fun i =>
    let t := s.drop i
    let prevOk := (((s.take i).getLast?).map (fun p => !isWordChar p)).getD true
    let nextOk := (((t.drop 4).head?).map (fun c => !isWordChar c)).getD true
    if (t.take 4).length = 4 && (t.take 4).all Char.isDigit && prevOk && nextOk then
      some (i + 4)
    else none

/-- Keep only up to the first word-bounded 4-digit year (no change if absent). -/
def truncAtYear (s : Str) : Str :=
  match yearEndIdx s with
  | some e => s.take e
  | none => s

/-- Lowercase full weekday names, for the case-insensitive `%A` directive. -/
def weekdayNames : List Str :=
  [("monday").data, ("tuesday").data, ("wednesday").data, ("thursday").data,
   ("friday").data, ("saturday").data, ("sunday").data]

/-- Lowercase full month names with their numbers, for `%B`. -/
def fullMonthNames : List (Str × Nat) :=
  [(("january").data, 1), (("february").data, 2), (("march").data, 3),
   (("april").data, 4), (("may").data, 5), (("june").data, 6),
   (("july").data, 7), (("august").data, 8), (("september").data, 9),
   (("october").data, 10), (("november").data, 11), (("december").data, 12)]

/-- Lowercase abbreviated month names with their numbers, for `%b`. -/
def abbrMonthNames : List (Str × Nat) :=
  [(("jan").data, 1), (("feb").data, 2), (("mar").data, 3), (("apr").data, 4),
   (("may").data, 5), (("jun").data, 6), (("jul").data, 7), (("aug").data, 8),
   (("sep").data, 9), (("oct").data, 10), (("nov").data, 11), (("dec").data, 12)]

/-- Consume a case-insensitive name from the front of `s`. -/
def stripNameCI (name : Str) (s : Str) : Option Str :=
  if lowerStr (s.take name.length) = name then some (s.drop name.length) else none

/-- Consume one of a list of names, returning its payload and the rest. -/
def stripAnyNameCI (names : List (Str × Nat)) (s : Str) : Option (Nat × Str) :=
  names.findSome? fun nv => (stripNameCI nv.1 s).map fun rest => (nv.2, rest)

/-- Consume `\s+` (whitespace runs in a strptime format match one or more). -/
def stripWs1 (s : Str) : Option Str :=
  match s with
  | c :: rest => if isWs c then some (rest.dropWhile isWs) else none
  | [] => none

/-- The `%d` directive of CPython strptime, whose regex is
`(3[01]|[12]\d|0[1-9]|[1-9])` in that alternation order. -/
def parseDay : Str → Option (Nat × Str)
  | c1 :: c2 :: rest =>
    if c1 = '3' ∧ (c2 = '0' ∨ c2 = '1') then some (30 + (c2.toNat - 48), rest)
    else if (c1 = '1' ∨ c1 = '2') ∧ c2.isDigit then
      some ((c1.toNat - 48) * 10 + (c2.toNat - 48), rest)
    else if c1 = '0' ∧ c2.isDigit ∧ c2 ≠ '0' then some (c2.toNat - 48, rest)
    else if c1.isDigit ∧ c1 ≠ '0' then some (c1.toNat - 48, c2 :: rest)
    else none
  | [c1] => if c1.isDigit ∧ c1 ≠ '0' then some (c1.toNat - 48, []) else none
  | [] => none

/-- The `%Y` directive: exactly four digits. -/
def parseYear4 (s : Str) : Option (Nat × Str) :=
  let ds := s.take 4
  if ds.length = 4 ∧ ds.all Char.isDigit then
    some (ds.foldl (fun acc c => acc * 10 + (c.toNat - 48)) 0, s.drop 4)
  else none

/-- Days per month with the Gregorian leap rule (the `datetime(y, m, d)`
constructor validates the day against this). -/
def daysInMonth (y m : Nat) : Nat :=
  if m = 2 then
    if y % 4 = 0 ∧ (y % 100 ≠ 0 ∨ y % 400 = 0) then 29 else 28
  else if m = 4 ∨ m = 6 ∨ m = 9 ∨ m = 11 then 30
  else 31

/-- `datetime(year, month, day)` accepts the triple (MINYEAR = 1). -/
def validYmd (y m d : Nat) : Bool := 1 ≤ y ∧ 1 ≤ d ∧ d ≤ daysInMonth y m

/-- One strptime attempt against `%A, %B %d[,] %Y` (full or abbreviated month
names according to `months`; `commaAfterDay` selects the `%d,` variants).  The
whole input must be consumed and the date must be constructible. -/
def tryDateFormat (months : List (Str × Nat)) (commaAfterDay : Bool) (s : Str) :
    Option (Nat × Nat × Nat) := do
  let r1 ← weekdayNames.findSome? fun w => stripNameCI w s
  let r2 ← match r1 with | ',' :: rest => some rest | _ => none
  let r3 ← stripWs1 r2
  let (m, r4) ← stripAnyNameCI months r3
  let r5 ← stripWs1 r4
  let (d, r6) ← parseDay r5
  let r7 ←
    if commaAfterDay then
      match r6 with
      | ',' :: rest => stripWs1 rest
      | _ => none
    else stripWs1 r6
  let (y, r8) ← parseYear4 r7
  if r8 = [] ∧ validYmd y m d then some (y, m, d) else none

/-- The four formats of `parse_date`, in source order. -/
def tryDateFormats (s : Str) : Option (Nat × Nat × Nat) :=
  (tryDateFormat fullMonthNames true s).orElse fun _ =>
  (tryDateFormat fullMonthNames false s).orElse fun _ =>
  (tryDateFormat abbrMonthNames true s).orElse fun _ =>
  tryDateFormat abbrMonthNames false s

/-- The clock-independent core of `parse_date`: cleaning, truncation, formats. -/
def parseDateCore (s : Str) : Option (Nat × Nat × Nat) :=
  tryDateFormats (truncAtYear (trimWs (collapseWs s)))

/-- `parse_date` (lines 91-121): empty input or any parse failure yields the
current UTC time, i.e. a clock reading at the ambient tick. -/
def parseDatePy (s : Str) (tick : Nat) : PyDateTime :=
  if s = [] then .utcNow tick
  else
    match parseDateCore s with
    | some (y, m, d) => .fromParts y m d
    | none => .utcNow tick

/-- Lines 481-482: the labeled shipping-date value parsed by `parse_date`,
else `datetime.utcnow()`. -/
def shippingDateOf (body : Str) (tick : Nat) : PyDateTime :=
  match labelValue (("Committed Shipping Date:").data) body with
  | some v => parseDatePy v tick
  | none => .utcNow tick

/-! ## Per-category print jobs (email_processor.py lines 123-126, 170-173, 484-497) -/

/-- `ORDER_TYPE_MAPPING.keys()` in insertion order (lines 26-39). -/
def orderTypeKeys : List Str :=
  [("DTF").data, ("ProColor").data, ("Glitter").data, ("UV DTF").data,
   ("Sublimation").data, ("Glow in the Dark").data, ("Gold Foil").data,
   ("Reflective").data, ("Pearl").data, ("Iridescent").data,
   ("Spangle").data, ("Thermochromic").data]

/-- Leftmost index of a literal substring. -/
def firstIdxOf (pat : Str) (s : Str) : Option Nat :=
  (List.range (s.length + 1)).findSome? fun i =>
    if pat.isPrefixOf (s.drop i) then some i else none

/-- `re.search(rf"{job_type}.*?(?=\n\n|\Z)", body, re.DOTALL)`: from the first
occurrence of the category name, lazily up to the first blank line or the end. -/
def sectionFor (jobType : Str) (body : Str) : Option Str :=
  match firstIdxOf jobType body with
  | some i => some (jobType ++ takeUntilBlankLine ((body.drop i).drop jobType.length))
  | none => none

/-- `re.search(r"Total Print Length:\s*([\d.]+)\s*inches", text)`: the matched
numeric token (the source converts it with `float`; the token itself is kept
here, so `none` stands for the `0.0` default of a failed search). -/
def parsePrintLengthTok (text : Str) : Option Str :=
  (List.range (text.length + 1)).findSome? fun i =>
    let t := text.drop i
    if (("Total Print Length:").data).isPrefixOf t then
      let u := (t.drop 19).dropWhile isWs
      let tok := u.takeWhile (fun c => c.isDigit || c = '.')
      if tok = [] then none
      else
        let v := (u.drop tok.length).dropWhile isWs
        if (("inches").data).isPrefixOf v then some tok else none
    else none

/-- Scanner for `count_gang_sheets` (lines 170-173): count non-overlapping
matches of `rf"{job_type} Gang Sheet #\d+"`, resuming after each match.  Fuel =
length always suffices (each step consumes at least one character). -/
def countGangSheetsGo (pat : Str) : Nat → Str → Nat
  | _, [] => 0
  | 0, _ => 0
  | fuel + 1, c :: rest =>
    if pat.isPrefixOf (c :: rest) then
      let after := (c :: rest).drop pat.length
      let ds := after.takeWhile Char.isDigit
      if ds.length = 0 then countGangSheetsGo pat fuel rest
      else 1 + countGangSheetsGo pat fuel (after.drop ds.length)
    else countGangSheetsGo pat fuel rest

/-- `count_gang_sheets`: `len(re.findall(rf"{job_type} Gang Sheet #\d+", text))`. -/
def countGangSheets (pat : Str) (s : Str) : Nat := countGangSheetsGo pat s.length s

/-- A PrintJob row as assembled at lines 493-497 (`total_print_length` is kept
as the matched token, `none` meaning the 0.0 default). -/
structure PrintJobSpec where
  job_type : Str
  total_print_length : Option Str
  gang_sheets : Nat
deriving DecidableEq, Repr

/-- Lines 485-497: for each mapping key present in the parsed order-type list,
locate its section and extract length and gang-sheet count. -/
def printJobsOf (body : Str) (orderTypes : List Str) : List PrintJobSpec :=
  orderTypeKeys.filterMap fun jt =>
    if jt ∈ orderTypes then
      match sectionFor jt body with
      | some sec =>
        some ⟨jt, parsePrintLengthTok sec,
              countGangSheets (jt ++ ((" Gang Sheet #").data)) sec⟩
      | none => none
    else none

/-! ## parse_order_details (email_processor.py lines 450-509) -/

/-- The structured record returned by `parse_order_details`. -/
structure OrderDetails where
  po_number : Option Str
  order_type : Str
  requires_quality_check : Bool
  customer_name : Str
  delivery_address : Str
  committed_shipping_date : PyDateTime
  print_jobs : List PrintJobSpec
deriving DecidableEq, Repr

/-- `parse_order_details`: every field extracted independently; the only way the
function can fail is the `AttributeError` of the quality-check line (see
`qcFlag`), and the only clock use is the shipping-date fallback. -/
def parseOrderDetails (body : Str) (tick : Nat) : Except Unit OrderDetails :=
  (qcFlag body).map fun qc =>
    let ots := parseOrderTypes body
    let addr := match extractAddressSection body with
      | some sec => parseAddress sec
      | none => ([], [])
    { po_number := poNumberOf body
      order_type := orderTypeString ots
      requires_quality_check := qc
      customer_name := addr.1
      delivery_address := addr.2
      committed_shipping_date := shippingDateOf body tick
      print_jobs := printJobsOf body ots }

/-! ## Persistence and duplicate handling (email_processor.py lines 592-664;
models/order.py line 10: `po_number = Column(String(50), unique=True, ...)`)

The database-visible effect of processing one parsed message is modelled on a
state of Order rows and ProcessingLog rows.  Rows carry the fields the claims
observe (`po_number`, `status`; log rows carry action/status/error).  The
pre-insert duplicate check (lines 592-597) and the `IntegrityError` handler
(lines 618-625) both `continue` after a console print — neither calls
`log_to_db`, so neither branch appends a ProcessingLog row.  External effects
(folder creation, attachments, printing, websocket broadcasts) are outside the
store and not part of the state. -/

/-- An Order row as the claims observe it. -/
structure OrderRow where
  po : Option Str
  status : Str
deriving DecidableEq, Repr

/-- A ProcessingLog row (`log_to_db`). -/
structure LogRow where
  action : Str
  status : Str
  error : Option Str
deriving DecidableEq, Repr

/-- The transactional store. -/
structure DbState where
  orders : List OrderRow
  logs : List LogRow
deriving DecidableEq, Repr

/-- The empty store. -/
def emptyDb : DbState := ⟨[], []⟩

/-- `self.db.add(order); self.db.commit()` under the `unique=True` constraint on
`po_number`: the insert raises `IntegrityError` when a row with the same non-NULL
key exists (SQL uniqueness does not fire on NULLs). -/
def dbInsertOrder (db : DbState) (row : OrderRow) : Except Unit DbState :=
  if db.orders.any (fun o => decide (o.po = row.po) && row.po.isSome) then .error ()
  else .ok { db with orders := db.orders ++ [row] }

/-- Set the status of the most recently inserted row (the final
`order.status = "completed"; self.db.commit()` of lines 653-655). -/
def setLastStatus (st : Str) : List OrderRow → List OrderRow
  | [] => []
  | [o] => [{ o with status := st }]
  | o :: rest => o :: setLastStatus st rest

/-- Lines 592-664 for one successfully parsed message, keyed by its PO number:
the pre-insert query (`filter(Order.po_number == po).first()`, where `== None`
compares IS NULL) discards a duplicate; an `IntegrityError` on the insert is
rolled back and likewise discarded; otherwise the row is committed with status
"processing" and finishes as "completed".  No branch writes a ProcessingLog. -/
def processParsedMessage (db : DbState) (po : Option Str) : DbState :=
  if db.orders.any (fun o => decide (o.po = po)) then db
  else
    match dbInsertOrder db ⟨po, ("processing").data⟩ with
    | .error _ => db
    | .ok db1 => { db1 with orders := setLastStatus (("completed").data) db1.orders }

/-- A sequence of parsed messages reaching the order-creation stage, in order. -/
def processAll (db : DbState) : List (Option Str) → DbState
  | [] => db
  | po :: rest => processAll (processParsedMessage db po) rest

/-- Number of Order rows carrying a given PO key. -/
def countPo (db : DbState) (po : Option Str) : Nat :=
  (db.orders.filter (fun o => decide (o.po = po))).length

/-! ## The fetched-batch loop (email_processor.py lines 552-664)

Inside `monitor_emails`, the `for e_id in email_ids:` loop body covers only the
fetch `try/except` (lines 557-567); the sender check, parsing and persistence
(lines 569-664) sit at the indentation level of the `if email_ids:` block, after
the loop, and read the variables bound by the last loop iteration (including the
loop variable `e_id` itself at line 613).  The batch is a list of fetch results;
a failed fetch is `none`. -/

/-- A fetched and decoded message. -/
structure FetchedEmail where
  sender : Str
  body : Str
deriving DecidableEq, Repr

/-- The message left bound in `email_message` after the fetch loop: the last
successful fetch (fetch failures `continue` without rebinding). -/
def lastFetched (batch : List (Option FetchedEmail)) : Option FetchedEmail :=
  batch.foldl (fun acc x => match x with | some e => some e | none => acc) none

/-- One pass over a nonempty unseen batch, as the code executes it: every
message is fetched (marking it seen), then the post-loop block runs once on the
last fetched message — sender allow-list check (`ALLOWED_SENDER in sender`),
`parse_order_details`, and the persistence step.  A parse exception is caught at
line 661 and logged as a failed "Order Processing" stage. -/
def monitorBatch (allowed : Str) (db : DbState) (batch : List (Option FetchedEmail))
    (tick : Nat) : DbState :=
  match lastFetched batch with
  | none => db
  | some em =>
    if containsSub allowed em.sender then
      match parseOrderDetails em.body tick with
      | .error _ =>
        { db with logs := db.logs ++
            [⟨("Order Processing").data, ("failed").data, some (("AttributeError").data)⟩] }
      | .ok d => processParsedMessage db d.po_number
    else db

/-! ## Link discovery (email_processor.py lines 184-220)

The parsed HTML document is modelled in first-child/next-sibling form so that
every traversal is plainly structural.  `Node.none'` ends a sibling chain;
`Node.elem tag href children sib` is an element (only the `href` attribute is
relevant); `Node.textNode s sib` is a text node.  BeautifulSoup's
`get_text(strip=True)` concatenates the stripped strings of a subtree, and the
soup object itself (the whole document) terminates every `parent` chain, so the
ancestor stack starts at the document.  A missing or unparsable body (the
`if not html_content` guard and the `except` handler) is the `none` document. -/

/-- A parsed HTML forest in first-child/next-sibling representation. -/
inductive Node where
  | nil
  | textNode (s : Str) (sib : Node)
  | elem (tag : Str) (href : Option Str) (children : Node) (sib : Node)
deriving DecidableEq, Repr

/-- `get_text(strip=True)` of a forest: each text fragment stripped, concatenated. -/
def textsF : Node → Str
  | .nil => []
  | .textNode s sib => trimWs s ++ textsF sib
  | .elem _ _ c sib => textsF c ++ textsF sib

/-- A hyperlink found by `find_all('a', href=True)` together with its ancestor
chain, closest first; each ancestor is recorded by its children forest (which is
what `get_text` reads), and the chain ends at the document. -/
structure LinkInfo where
  href : Str
  linkText : Str
  ancestors : List Node
deriving Repr

/-- Pre-order collection of `a[href]` elements with their ancestor chains. -/
def collectLinks (anc : List Node) : Node → List LinkInfo
  | .nil => []
  | .textNode _ sib => collectLinks anc sib
  | .elem tag href c sib =>
    (match href with
     | some u => if tag = ("a").data then [⟨u, textsF c, anc⟩] else []
     | none => [])
    ++ collectLinks (c :: anc) c
    ++ collectLinks anc sib

/-- The context loop of lines 201-209: up to five iterations, each one
*overwriting* `context` with the current ancestor's text before moving outward. -/
def ctxLoop : List Node → Nat → Str → Str
  | _, 0, ctx => ctx
  | [], _ + 1, ctx => ctx
  | p :: rest, n + 1, _ => ctxLoop rest n (textsF p)

/-- One discovered download link as returned to the caller. -/
structure DownloadEntry where
  url : Str
  linkText : Str
  context : Str
deriving DecidableEq, Repr

/-- `extract_download_urls_from_html`: every `a[href]` whose visible text
contains "download" case-insensitively, with the context computed by `ctxLoop`;
a missing/malformed document gives `[]`. -/
def extractDownloadUrls (doc : Option Node) : List DownloadEntry :=
  match doc with
  | none => []
  | some root =>
    (collectLinks [root] root).filterMap fun l =>
      if containsSub (("download").data) (lowerStr l.linkText) then
        some ⟨l.href, l.linkText, ctxLoop l.ancestors 5 []⟩
      else none

/-- The context as the specification describes it: the concatenation of the text
of up to five ancestor elements, closest ancestor first. -/
def contextSpecConcat (anc : List Node) : Str := ((anc.take 5).map textsF).flatten

/-- Link discovery as described by the specification's words, for comparison
with `extractDownloadUrls` (the two differ only in the context field). -/
def extractDownloadUrlsSpec (doc : Option Node) : List DownloadEntry :=
  match doc with
  | none => []
  | some root =>
    (collectLinks [root] root).filterMap fun l =>
      if containsSub (("download").data) (lowerStr l.linkText) then
        some ⟨l.href, l.linkText, contextSpecConcat l.ancestors⟩
      else none

/-- The closed form of what `ctxLoop` actually computes: the text of the last
ancestor among the first five (or the initial value when there is none). -/
def lastAncestorText (anc : List Node) : Str :=
  match (anc.take 5).getLast? with
  | some p => textsF p
  | none => []

/-! ## Image-to-label conversion (email_processor.py lines 312-346)

`convert_image_to_4x6_pdf` computes page size, uniform scale, and the drawn
rectangle; reportlab's `inch` is 72 points and the default `top_margin_inch` is
-0.5.  Real arithmetic is modelled exactly over `ℚ`. -/

/-- Points per inch (`reportlab.lib.units.inch`). -/
def inchPts : ℚ := 72

/-- The default `top_margin_inch = -0.5` used by both pipeline call sites. -/
def defaultTopMarginInch : ℚ := -(1 / 2)

/-- The geometry produced by `convert_image_to_4x6_pdf`. -/
structure LabelPlacement where
  pageW : ℚ
  pageH : ℚ
  x : ℚ
  y : ℚ
  w : ℚ
  h : ℚ
deriving DecidableEq, Repr

/-- Lines 319-338 for an image of `imgW × imgH` pixels: a 4×6-inch page,
`scale = min(pageW/imgW, pageH/imgH)`, the image centered, and the vertical
position shifted by `topMargin` inches. -/
def convertImagePlacement (imgW imgH : ℕ) (topMargin : ℚ) : LabelPlacement :=
  let pw : ℚ := 4 * inchPts
  let ph : ℚ := 6 * inchPts
  let scale : ℚ := min (pw / imgW) (ph / imgH)
  let sw : ℚ := imgW * scale
  let sh : ℚ := imgH * scale
  { pageW := pw, pageH := ph
    x := (pw - sw) / 2
    y := (ph - sh) / 2 + topMargin * inchPts
    w := sw, h := sh }

/-! ## Print dispatcher (printer_service.py lines 19-44) -/

/-- Outcome of `print_file`: the boolean result and how many external print
processes were spawned on the way. -/
structure PrintAttempt where
  ok : Bool
  externalInvocations : Nat
deriving DecidableEq, Repr

/-- The document types `print_file` dispatches. -/
def dispatchExts : List Str :=
  [("pdf").data, ("png").data, ("jpg").data, ("jpeg").data]

/-- `print_file`: everything is inside `try/except` returning a boolean.  A
`None` file_type raises on `.lower()` and the handler returns `False`; a
non-dispatch type returns `False`; a dispatch type either simulates (Docker:
log and return `True`, no external process) or runs the external print command,
whose zero-exit outcome is the parameter `sumatraOk`. -/
def printFileModel (isDocker : Bool) (sumatraOk : Bool) (fileType : Option Str)
    (_filePath : Str) : PrintAttempt :=
  match fileType with
  | none => ⟨false, 0⟩
  | some ft =>
    if lowerStr ft ∈ dispatchExts then
      if isDocker then ⟨true, 0⟩ else ⟨sumatraOk, 1⟩
    else ⟨false, 0⟩

/-- The specification's dispatchability predicate: the lowercased type is one of
pdf/png/jpg/jpeg. -/
def dispatchableSpec (fileType : Option Str) : Bool :=
  match fileType with
  | some ft => decide (lowerStr ft ∈ dispatchExts)
  | none => false

/-! ## Filename from URL (email_processor.py lines 293-310) and the
file-type classification of lines 723-743 / 817-834. -/

/-- Strip a `scheme:` as `urlparse` does: the text before the first `:` must
start with a letter and consist of letters, digits, `+`, `-`, `.`. -/
def isSchemeChar (c : Char) : Bool := c.isAlpha || c.isDigit || c = '+' || c = '-' || c = '.'

/-- Remove the scheme prefix, when present. -/
def dropScheme (u : Str) : Str :=
  match u with
  | [] => []
  | c :: _ =>
    if c.isAlpha then
      let run := u.takeWhile isSchemeChar
      match u.drop run.length with
      | ':' :: rest => rest
      | _ => u
    else u

/-- `urlparse(url).path`: drop the scheme, drop `//netloc` when present (the
netloc extends to the first `/`, `?` or `#`), then cut at the query/fragment. -/
def urlPath (u : Str) : Str :=
  let v := dropScheme u
  let w :=
    if (("//").data).isPrefixOf v then
      (v.drop 2).dropWhile (fun c => !(c = '/' || c = '?' || c = '#'))
    else v
  w.takeWhile (fun c => !(c = '?' || c = '#'))

/-- Hex digit value. -/
def hexVal (c : Char) : Option Nat :=
  if c.isDigit then some (c.toNat - 48)
  else if 'a' ≤ c ∧ c ≤ 'f' then some (c.toNat - 87)
  else if 'A' ≤ c ∧ c ≤ 'F' then some (c.toNat - 55)
  else none

/-- `unquote`, byte-wise: each valid `%XX` escape decodes to the character of
that byte value; an invalid escape is kept literally.  (Multi-byte UTF-8
sequences are decoded byte by byte here, which agrees with CPython on all ASCII
results and in particular on the `/` and `.` characters the caller inspects.) -/
def unquotePct : Str → Str
  | [] => []
  | '%' :: a :: b :: rest =>
    match hexVal a, hexVal b with
    | some x, some y => Char.ofNat (16 * x + y) :: unquotePct rest
    | _, _ => '%' :: unquotePct (a :: b :: rest)
  | c :: rest => c :: unquotePct rest

/-- `os.path.basename` on POSIX (the deployment the source detects): the part
after the last `/`. -/
def basenamePosix (p : Str) : Str := (p.reverse.takeWhile (· ≠ '/')).reverse

/-- `get_filename_from_url` (lines 293-310): the URL path's basename, or
`default_name + ".png"` when it is empty or has no dot. -/
def getFilenameFromUrl (url dflt : Str) : Str :=
  if basenamePosix (unquotePct (urlPath url)) = []
      ∨ (basenamePosix (unquotePct (urlPath url))).contains ('.') = false then
    dflt ++ ((".png").data)
  else basenamePosix (unquotePct (urlPath url))

/-- `name.split('.')[-1]`: the segment after the last dot (the whole name when
there is no dot). -/
def lastDotSeg (s : Str) : Str := (s.reverse.takeWhile (· ≠ '.')).reverse

/-- The conversion route chosen from a filename at lines 723-743 / 817-834. -/
inductive FileRoute where
  | imageConversion
  | pdfAsIs
  | keepOriginal
deriving DecidableEq, Repr

/-- Extensions routed through `convert_image_to_4x6_pdf`. -/
def imageExts : List Str :=
  [("png").data, ("jpg").data, ("jpeg").data, ("gif").data, ("bmp").data]

/-- `file_extension = filename.split('.')[-1].lower()` and the branch on it. -/
def fileRouteOfName (name : Str) : FileRoute :=
  if lowerStr (lastDotSeg name) ∈ imageExts then .imageConversion
  else if lowerStr (lastDotSeg name) = ("pdf").data then .pdfAsIs
  else .keepOriginal

/-! # Claims -/

deriving instance DecidableEq for Except

/-- C9: order-type parsing round-trips the `+`-joined list.  On the body line
`"Order Type: Sublimation + DTF + ProColor"` the parsed list is exactly
`["Sublimation", "DTF", "ProColor"]` in order of appearance with whitespace
trimmed; an unknown category name is passed through unmodified; and the
reconstructed display string (`" + ".join`) equals
`"Sublimation + DTF + ProColor"`. -/
theorem C9_order_type_round_trip :
    parseOrderTypes (("Order Type: Sublimation + DTF + ProColor").data) =
      [("Sublimation").data, ("DTF").data, ("ProColor").data]
    ∧ orderTypeString
        (parseOrderTypes (("Order Type: Sublimation + DTF + ProColor").data)) =
      ("Sublimation + DTF + ProColor").data
    ∧ parseOrderTypes (("Order Type: Quux + DTF").data) =
      [("Quux").data, ("DTF").data] := by
  refine ⟨by decide, by decide, by decide⟩

/-- C4 (failing input): with the body `"Requires Quality Check: maybe\n"` the
label is present, so the guard passes, but the inner search for
`Requires Quality Check:\s*(Yes|No)` finds nothing and `.group(1)` raises
`AttributeError` — `parse_order_details` aborts instead of yielding `False`. -/
theorem C4_qc_raises_on_malformed_value :
    qcFlag (("Requires Quality Check: maybe\n").data) = .error ()
    ∧ parseOrderDetails (("Requires Quality Check: maybe\n").data) 0 = .error ()
    ∧ qcFlag (("Requires Quality Check: Yes\n").data) = .ok true
    ∧ qcFlag (("Requires Quality Check: No\n").data) = .ok false
    ∧ qcFlag (("no label here").data) = .ok false := by
  refine ⟨by decide, by decide, by decide, by decide, by decide⟩

/-- C8: the simulation-mode print dispatcher is total and process-free: for
every attachment (`file_type` possibly even `None`), `print_file` returns the
boolean given by the pdf/png/jpg/jpeg dispatchability test, spawning no
external process — success for every dispatchable type, a `False`
"not dispatched" result for every other type, and no exception escapes. -/
theorem C8_simulation_dispatch :
    ∀ (fileType : Option Str) (filePath : Str) (sumatraOk : Bool),
      printFileModel true sumatraOk fileType filePath =
        ⟨dispatchableSpec fileType, 0⟩ := by
  intro fileType filePath sumatraOk
  cases fileType with
  | none => rfl
  | some ft =>
    simp only [printFileModel, dispatchableSpec]
    by_cases h : lowerStr ft ∈ dispatchExts
    · simp [h]
    · simp [h]

/-- Appending `.png` puts `png` after the final dot, whatever the default name is. -/
theorem lastDotSeg_append_png (d : Str) :
    lastDotSeg (d ++ ((".png").data)) = ("png").data := by
  unfold lastDotSeg
  rw [List.reverse_append]
  rfl

/-- C10: for every download URL whose (unquoted) path has an empty basename or a
basename without a dot, the derived filename is the supplied default with
`.png` appended, and the extension computed from it (`split('.')[-1].lower()`)
routes the document through the image-conversion path. -/
theorem C10_default_filename_is_png :
    ∀ (url dflt : Str),
      (basenamePosix (unquotePct (urlPath url)) = []
        ∨ (basenamePosix (unquotePct (urlPath url))).contains ('.') = false) →
      getFilenameFromUrl url dflt = dflt ++ ((".png").data)
      ∧ fileRouteOfName (getFilenameFromUrl url dflt) = .imageConversion := by
  intro url dflt h
  have hf : getFilenameFromUrl url dflt = dflt ++ ((".png").data) := by
    unfold getFilenameFromUrl
    exact if_pos h
  refine ⟨hf, ?_⟩
  rw [hf]
  unfold fileRouteOfName
  rw [lastDotSeg_append_png]
  rfl

/-- C10 witness: a URL ending in a directory slash gets the default name with
`.png` and is routed to image conversion. -/
theorem C10_witness :
    basenamePosix (unquotePct (urlPath (("https://example.com/downloads/").data))) = []
    ∧ getFilenameFromUrl (("https://example.com/downloads/").data)
        (("dtf_textile_sheet_1").data) =
      (("dtf_textile_sheet_1").data) ++ ((".png").data)
    ∧ fileRouteOfName (getFilenameFromUrl (("https://example.com/downloads/").data)
        (("dtf_textile_sheet_1").data)) = .imageConversion :=
  ⟨by decide,
   (C10_default_filename_is_png _ _ (Or.inl (by decide))).1,
   (C10_default_filename_is_png _ _ (Or.inl (by decide))).2⟩

/-- C5 (counterexamples): the claim fails as stated.  With the PO field
`"(x Order"` (which carries a trailing stray word `Order`), the cleanup leaves
`"(x"` — it contains a parenthesis and does not match `[A-Za-z0-9_-]+`, because
after removing the trailing `Order` nothing matches the leading-run pattern and
the raw remainder is returned unchanged.  With the field `"ABCOrderOrder (x)"`
(which carries a parenthetical note), the single `\s*Order$` substitution
removes only one `Order` and the cleaned PO number `"ABCOrder"` still ends with
`"Order"`. -/
theorem C5_counterexample :
    poNumberOf (("PO Number: (x Order\nOrder Type: DTF\n").data) = some (("(x").data)
    ∧ ('(') ∈ (("(x").data)
    ∧ ¬ (("(x").data).all isAllowedPoChar = true
    ∧ endsWithOrderCI (("(x Order").data) = true
    ∧ poNumberOf (("PO Number: ABCOrderOrder (x)\nOrder Type: DTF\n").data) =
        some (("ABCOrder").data)
    ∧ (("Order").data).isSuffixOf (("ABCOrder").data) = true
    ∧ hasParenNote (("ABCOrderOrder (x)").data) = true := by
  refine ⟨by decide, by decide, by decide, by decide, by decide, by decide, by decide⟩

/-- C5 (amended): for every body whose extracted PO field (stripped) contains a
parenthetical note or a trailing stray word `Order`, *provided* the remainder
left by the parenthesis- and `Order`-stripping steps begins with a character of
`[A-Za-z0-9_-]`, the cleaned PO number is that nonempty leading run: all its
characters match `[A-Za-z0-9_-]` and it contains no parentheses.  (It may still
end in `Order` when the raw field stacked `OrderOrder`, and when the remainder
begins with a disallowed character the remainder is returned unchanged — the
counterexamples show both originals fail.) -/
theorem C5_cleaned_po_amended :
    ∀ (body g : Str),
      extractPoRaw body = some g →
      (hasParenNote (trimWs g) = true ∨ endsWithOrderCI (trimWs g) = true) →
      ∀ (c : Char) (rest : Str),
        poRemainder (trimWs g) = c :: rest →
        isAllowedPoChar c = true →
        ∃ run, poNumberOf body = some run
          ∧ run ≠ []
          ∧ run.all isAllowedPoChar = true
          ∧ ('(') ∉ run ∧ (')') ∉ run := by
  intro body g hex _hdom c rest hrem hc
  have hg : trimWs g ≠ [] := by
    intro h0
    rw [h0] at hrem
    have hempty : poRemainder ([] : Str) = [] := by decide
    rw [hempty] at hrem
    cases hrem
  have hne : (c :: rest).takeWhile isAllowedPoChar ≠ [] := by
    simp [List.takeWhile_cons, hc]
  have hclean : cleanPo (trimWs g) = (c :: rest).takeWhile isAllowedPoChar := by
    unfold cleanPo
    rw [hrem]
    exact if_neg hne
  have hpo : poNumberOf body = some ((c :: rest).takeWhile isAllowedPoChar) := by
    simp only [poNumberOf, hex]
    rw [if_neg hg, hclean]
  refine ⟨(c :: rest).takeWhile isAllowedPoChar, hpo, hne, List.all_takeWhile, ?_, ?_⟩
  · intro hmem
    have := List.mem_takeWhile_imp hmem
    exact absurd this (by decide)
  · intro hmem
    have := List.mem_takeWhile_imp hmem
    exact absurd this (by decide)

/-- C5 witness: the field `"22121 (Replacement)"` cleans to `"22121"`. -/
theorem C5_witness :
    extractPoRaw (("PO Number: 22121 (Replacement)\nOrder Type: DTF\n").data) =
      some (("22121 (Replacement)").data)
    ∧ hasParenNote (trimWs (("22121 (Replacement)").data)) = true
    ∧ poRemainder (trimWs (("22121 (Replacement)").data)) = '2' :: (("2121").data)
    ∧ ∃ run,
        poNumberOf (("PO Number: 22121 (Replacement)\nOrder Type: DTF\n").data) = some run
        ∧ run ≠ [] ∧ run.all isAllowedPoChar = true ∧ ('(') ∉ run ∧ (')') ∉ run :=
  ⟨by decide, by decide, by decide,
   C5_cleaned_po_amended (("PO Number: 22121 (Replacement)\nOrder Type: DTF\n").data)
     (("22121 (Replacement)").data) (by decide) (Or.inl (by decide)) '2' (("2121").data)
     (by decide) (by decide)⟩

/-- The shipping-date value when it is independent of the clock: the label is
present and its value survives `parse_date`'s format list.  In every other case
the source reads `datetime.utcnow()`. -/
def clockFreeShipping (body : Str) : Option (Nat × Nat × Nat) :=
  match labelValue (("Committed Shipping Date:").data) body with
  | none => none
  | some v => if v = [] then none else parseDateCore v

/-- When its value parses, `parse_date` does not read the clock. -/
theorem parseDatePy_clock_free (v : Str) (hv : v ≠ [])
    (hc : (parseDateCore v).isSome = true) (t1 t2 : Nat) :
    parseDatePy v t1 = parseDatePy v t2 := by
  unfold parseDatePy
  rw [if_neg hv, if_neg hv]
  cases hcc : parseDateCore v with
  | none => rw [hcc] at hc; exact Bool.noConfusion hc
  | some ymd =>
    obtain ⟨y, m, d⟩ := ymd
    rfl

/-- When the shipping date parses, the date field does not depend on the clock. -/
theorem shippingDateOf_clock_free (body : Str)
    (h : (clockFreeShipping body).isSome = true) (t1 t2 : Nat) :
    shippingDateOf body t1 = shippingDateOf body t2 := by
  unfold shippingDateOf
  cases hl : labelValue (("Committed Shipping Date:").data) body with
  | none => simp [clockFreeShipping, hl] at h
  | some v =>
    simp only [clockFreeShipping, hl] at h
    by_cases hv : v = []
    · rw [if_pos hv] at h; exact Bool.noConfusion h
    · rw [if_neg hv] at h
      exact parseDatePy_clock_free v hv h t1 t2

/-- C3 (counterexample): the claim fails as stated for bodies with a missing
shipping-date label.  `parse_order_details` then stores `datetime.utcnow()`,
so two invocations at different clock readings yield records differing in
`committed_shipping_date` (all other fields agree). -/
theorem C3_counterexample :
    parseOrderDetails (("PO Number: 1\nOrder Type: DTF\n").data) 0 ≠
      parseOrderDetails (("PO Number: 1\nOrder Type: DTF\n").data) 1
    ∧ Except.map OrderDetails.committed_shipping_date
        (parseOrderDetails (("PO Number: 1\nOrder Type: DTF\n").data) 0) =
      .ok (.utcNow 0)
    ∧ Except.map OrderDetails.committed_shipping_date
        (parseOrderDetails (("PO Number: 1\nOrder Type: DTF\n").data) 1) =
      .ok (.utcNow 1) := by
  refine ⟨by decide, by decide, by decide⟩

/-- C3 (amended): the text extraction is pure and deterministic for every body
whose shipping-date label is present and parses — the result is then a function
of the body text alone, identical across invocations at any two clock readings.
For a missing or unparsable shipping date the record instead carries the
ingestion-time clock reading and re-parsing can differ in exactly that field. -/
theorem C3_parse_deterministic_amended :
    ∀ (body : Str) (t1 t2 : Nat),
      (clockFreeShipping body).isSome = true →
      parseOrderDetails body t1 = parseOrderDetails body t2 := by
  intro body t1 t2 h
  have hd := shippingDateOf_clock_free body h t1 t2
  simp only [parseOrderDetails, hd]

/-- C3 witness: a body with a parsable shipping date gives identical records at
two distinct clock readings. -/
theorem C3_witness :
    (clockFreeShipping
      (("PO Number: 9\nOrder Type: DTF\nCommitted Shipping Date: Thursday, October 2 2025\n").data)).isSome = true
    ∧ parseOrderDetails
        (("PO Number: 9\nOrder Type: DTF\nCommitted Shipping Date: Thursday, October 2 2025\n").data) 0 =
      parseOrderDetails
        (("PO Number: 9\nOrder Type: DTF\nCommitted Shipping Date: Thursday, October 2 2025\n").data) 1 :=
  ⟨by decide,
   C3_parse_deterministic_amended
     (("PO Number: 9\nOrder Type: DTF\nCommitted Shipping Date: Thursday, October 2 2025\n").data)
     0 1 (by decide)⟩

/-- Arithmetic core for the label geometry: any uniform scale bounded by both
page ratios keeps the rectangle inside horizontally and below the page top, and
(under the -36-point shift) above the bottom iff the scaled height is bounded
by 360, which follows from the 4:5 aspect bound. -/
theorem labelFitAux (w h s : ℚ) (hw : 0 < w) (hh : 0 < h)
    (hs1 : s ≤ 288 / w) (hs2 : s ≤ 432 / h) :
    w * s ≤ 288 ∧ h * s ≤ 432 ∧ (h * 4 ≤ w * 5 → h * s ≤ 360) := by
  have hwne : w ≠ 0 := ne_of_gt hw
  have hhne : h ≠ 0 := ne_of_gt hh
  have hsw : w * s ≤ 288 := by
    calc w * s ≤ w * (288 / w) := mul_le_mul_of_nonneg_left hs1 hw.le
      _ = 288 := by field_simp
  have hsh : h * s ≤ 432 := by
    calc h * s ≤ h * (432 / h) := mul_le_mul_of_nonneg_left hs2 hh.le
      _ = 432 := by field_simp
  refine ⟨hsw, hsh, ?_⟩
  intro hr
  have h1 : h * s ≤ h * (288 / w) := mul_le_mul_of_nonneg_left hs1 hh.le
  have h2 : h * (288 / w) ≤ 360 := by
    rw [show h * (288 / w) = h * 288 / w from (mul_div_assoc h 288 w).symm]
    rw [div_le_iff₀ hw]
    nlinarith
  linarith

/-- C7 (counterexample): the claim fails as stated.  For a 100×150 image the
uniform scale fills the full 6-inch height, and the default vertical offset of
-0.5 inch pushes the drawn rectangle 36 points below the page bottom:
`y = (432 - 432)/2 + (-0.5)·72 = -36 < 0`. -/
theorem C7_counterexample :
    (convertImagePlacement 100 150 defaultTopMarginInch).y = -36
    ∧ ¬ (0 ≤ (convertImagePlacement 100 150 defaultTopMarginInch).y) := by
  have hy : (convertImagePlacement 100 150 defaultTopMarginInch).y = -36 := by
    simp only [convertImagePlacement]
    norm_num [inchPts, defaultTopMarginInch, min_def]
  exact ⟨hy, by rw [hy]; norm_num⟩

/-- C7 (amended): for every image, the page is exactly 4×6 inches (288×432
points), the scale is uniform (aspect ratio preserved: `w·imgH = h·imgW`), the
image is horizontally centered within bounds and never exceeds the page top;
under the default -0.5-inch vertical offset the drawn rectangle stays inside
the page bottom precisely when the scaled height is at most 360 points, which
holds whenever `4·imgH ≤ 5·imgW` — taller images protrude below the bottom. -/
theorem C7_label_geometry_amended :
    ∀ (imgW imgH : ℕ), 0 < imgW → 0 < imgH →
      (convertImagePlacement imgW imgH defaultTopMarginInch).pageW = 288
      ∧ (convertImagePlacement imgW imgH defaultTopMarginInch).pageH = 432
      ∧ (convertImagePlacement imgW imgH defaultTopMarginInch).w * imgH =
          (convertImagePlacement imgW imgH defaultTopMarginInch).h * imgW
      ∧ 0 ≤ (convertImagePlacement imgW imgH defaultTopMarginInch).x
      ∧ (convertImagePlacement imgW imgH defaultTopMarginInch).x +
          (convertImagePlacement imgW imgH defaultTopMarginInch).w ≤ 288
      ∧ (convertImagePlacement imgW imgH defaultTopMarginInch).y +
          (convertImagePlacement imgW imgH defaultTopMarginInch).h ≤ 432
      ∧ (4 * imgH ≤ 5 * imgW →
          0 ≤ (convertImagePlacement imgW imgH defaultTopMarginInch).y) := by
  intro imgW imgH hw hh
  have hw' : (0 : ℚ) < imgW := by exact_mod_cast hw
  have hh' : (0 : ℚ) < imgH := by exact_mod_cast hh
  have hs1 : min ((4 * inchPts) / (imgW : ℚ)) ((6 * inchPts) / (imgH : ℚ)) ≤
      288 / (imgW : ℚ) := by
    refine le_trans (min_le_left _ _) ?_
    norm_num [inchPts]
  have hs2 : min ((4 * inchPts) / (imgW : ℚ)) ((6 * inchPts) / (imgH : ℚ)) ≤
      432 / (imgH : ℚ) := by
    refine le_trans (min_le_right _ _) ?_
    norm_num [inchPts]
  obtain ⟨hsw, hsh, hsr⟩ :=
    labelFitAux (imgW : ℚ) (imgH : ℚ)
      (min ((4 * inchPts) / (imgW : ℚ)) ((6 * inchPts) / (imgH : ℚ))) hw' hh' hs1 hs2
  have h288 : (4 : ℚ) * inchPts = 288 := by norm_num [inchPts]
  have h432 : (6 : ℚ) * inchPts = 432 := by norm_num [inchPts]
  have hmar : defaultTopMarginInch * inchPts = -36 := by
    norm_num [defaultTopMarginInch, inchPts]
  rw [h288, h432] at hsw hsh hsr
  simp only [convertImagePlacement]
  rw [h288, h432, hmar]
  refine ⟨rfl, rfl, by ring, ?_, ?_, ?_, ?_⟩
  · linarith
  · linarith
  · linarith
  · intro hratio
    have hratio' : (imgH : ℚ) * 4 ≤ (imgW : ℚ) * 5 := by
      have hc : ((4 * imgH : ℕ) : ℚ) ≤ ((5 * imgW : ℕ) : ℚ) := by exact_mod_cast hratio
      push_cast at hc
      linarith
    have h360 := hsr hratio'
    linarith

/-- C7 witness: a 100×100 image satisfies the amended geometry (it fits fully,
since 4·100 ≤ 5·100). -/
theorem C7_witness :
    ((0 : ℕ) < 100)
    ∧ ((convertImagePlacement 100 100 defaultTopMarginInch).pageW = 288
      ∧ (convertImagePlacement 100 100 defaultTopMarginInch).pageH = 432
      ∧ (convertImagePlacement 100 100 defaultTopMarginInch).w * 100 =
          (convertImagePlacement 100 100 defaultTopMarginInch).h * 100
      ∧ 0 ≤ (convertImagePlacement 100 100 defaultTopMarginInch).x
      ∧ (convertImagePlacement 100 100 defaultTopMarginInch).x +
          (convertImagePlacement 100 100 defaultTopMarginInch).w ≤ 288
      ∧ (convertImagePlacement 100 100 defaultTopMarginInch).y +
          (convertImagePlacement 100 100 defaultTopMarginInch).h ≤ 432
      ∧ (4 * 100 ≤ 5 * 100 →
          0 ≤ (convertImagePlacement 100 100 defaultTopMarginInch).y)) :=
  ⟨by decide, C7_label_geometry_amended 100 100 (by decide) (by decide)⟩

/-- `setLastStatus` only touches the appended row. -/
theorem setLastStatus_append (st : Str) (l : List OrderRow) (o : OrderRow) :
    setLastStatus st (l ++ [o]) = l ++ [{ o with status := st }] := by
  induction l with
  | nil => rfl
  | cons a l ih =>
    cases l with
    | nil => rfl
    | cons b l2 =>
      show a :: setLastStatus st ((b :: l2) ++ [o]) =
        a :: ((b :: l2) ++ [{ o with status := st }])
      rw [ih]

/-- The duplicate pre-check succeeds exactly when some row carries the key. -/
theorem processParsed_skip (db : DbState) (po : Option Str)
    (h : db.orders.any (fun o => decide (o.po = po)) = true) :
    processParsedMessage db po = db := by
  simp [processParsedMessage, h]

/-- When no row carries the key, the insert commits and the row finishes
"completed": the state gains exactly that one row. -/
theorem processParsed_new (db : DbState) (po : Option Str)
    (h : db.orders.any (fun o => decide (o.po = po)) = false) :
    processParsedMessage db po =
      { db with orders := db.orders ++ [⟨po, ("completed").data⟩] } := by
  have hcons : db.orders.any
      (fun o => decide (o.po = po) && (po : Option Str).isSome) = false := by
    rw [List.any_eq_false] at h ⊢
    intro o ho
    have h1 := h o ho
    cases hdec : decide (o.po = po) with
    | false => simp
    | true => rw [hdec] at h1; exact absurd rfl h1
  unfold processParsedMessage
  rw [if_neg (by rw [h]; exact Bool.false_ne_true)]
  unfold dbInsertOrder
  rw [if_neg (by rw [hcons]; exact Bool.false_ne_true)]
  show { db with
    orders := setLastStatus (("completed").data)
      (db.orders ++ [OrderRow.mk po (("processing").data)]) } = _
  rw [setLastStatus_append]

/-- No branch of the duplicate-aware persistence step writes a ProcessingLog. -/
theorem processParsed_logs (db : DbState) (po : Option Str) :
    (processParsedMessage db po).logs = db.logs := by
  by_cases h : db.orders.any (fun o => decide (o.po = po)) = true
  · rw [processParsed_skip db po h]
  · have h' : db.orders.any (fun o => decide (o.po = po)) = false := by
      revert h; cases db.orders.any (fun o => decide (o.po = po)) <;> simp
    rw [processParsed_new db po h']

/-- The key count after one step: a fresh key is inserted once, a duplicate is
discarded, and other keys are untouched. -/
theorem countPo_process (db : DbState) (d p : Option Str) :
    countPo (processParsedMessage db d) p =
      if countPo db d = 0 ∧ d = p then countPo db p + 1 else countPo db p := by
  have hmem : db.orders.any (fun o => decide (o.po = d)) = true ↔ countPo db d ≠ 0 := by
    unfold countPo
    rw [List.any_eq_true]
    constructor
    · rintro ⟨o, ho, hdec⟩
      simp only [decide_eq_true_eq] at hdec
      have hofil : o ∈ db.orders.filter (fun o => decide (o.po = d)) := by
        rw [List.mem_filter]
        exact ⟨ho, by simp [hdec]⟩
      intro hlen
      rw [List.length_eq_zero] at hlen
      rw [hlen] at hofil
      cases hofil
    · intro hne
      have : db.orders.filter (fun o => decide (o.po = d)) ≠ [] := by
        intro h0; rw [h0] at hne; exact hne rfl
      obtain ⟨o, ho⟩ := List.exists_mem_of_ne_nil _ this
      rw [List.mem_filter] at ho
      exact ⟨o, ho.1, ho.2⟩
  by_cases hany : db.orders.any (fun o => decide (o.po = d)) = true
  · rw [processParsed_skip db d hany]
    rw [if_neg]
    rintro ⟨h0, _⟩
    exact (hmem.mp hany) h0
  · have hany' : db.orders.any (fun o => decide (o.po = d)) = false := by
      revert hany; cases db.orders.any (fun o => decide (o.po = d)) <;> simp
    have hc0 : countPo db d = 0 := by
      by_contra hne
      exact hany (hmem.mpr hne)
    rw [processParsed_new db d hany']
    by_cases hdp : d = p
    · subst hdp
      rw [if_pos ⟨hc0, rfl⟩]
      unfold countPo
      simp [List.filter_append]
    · rw [if_neg (by rintro ⟨_, h⟩; exact hdp h)]
      unfold countPo
      simp [List.filter_append, hdp]

/-- Folding a message list: a key ends with count 1 iff it already had one row
or some message carries it; it never exceeds one starting from a unique state. -/
theorem processAll_count (msgs : List (Option Str)) :
    ∀ (db : DbState) (p : Option Str),
      countPo (processAll db msgs) p =
        if countPo db p ≠ 0 then countPo db p
        else if msgs.any (fun m => decide (m = p)) then 1 else 0 := by
  induction msgs with
  | nil =>
    intro db p
    by_cases h : countPo db p = 0
    · simp [processAll, h]
    · simp [processAll, h]
  | cons m rest ih =>
    intro db p
    show countPo (processAll (processParsedMessage db m) rest) p = _
    rw [ih (processParsedMessage db m) p, countPo_process db m p]
    by_cases hmp : m = p
    · subst hmp
      by_cases h0 : countPo db m = 0
      · simp [h0, List.any_cons]
      · simp [h0, List.any_cons]
    · have : (decide (m = p)) = false := by simp [hmp]
      by_cases h0 : countPo db p = 0
      · simp [hmp, h0, List.any_cons, this]
      · simp [hmp, h0, List.any_cons, this]

/-- Folding a message list never writes ProcessingLog rows. -/
theorem processAll_logs (msgs : List (Option Str)) :
    ∀ (db : DbState), (processAll db msgs).logs = db.logs := by
  induction msgs with
  | nil => intro db; rfl
  | cons m rest ih =>
    intro db
    show (processAll (processParsedMessage db m) rest).logs = _
    rw [ih (processParsedMessage db m), processParsed_logs]

/-- C1 (counterexample): submitting the PO number `"22121"` twice yields exactly
one Order row with that key — but *zero* ProcessingLog rows, not the one entry
the claim requires: both duplicate branches only print to the console. -/
theorem C1_counterexample :
    countPo (processAll emptyDb [some (("22121").data), some (("22121").data)])
        (some (("22121").data)) = 1
    ∧ (processAll emptyDb
        [some (("22121").data), some (("22121").data)]).logs.length = 0 := by
  refine ⟨by decide, by decide⟩

/-- C1 (amended): starting from an empty store, for every sequence of parsed
messages, a PO key carried by at least one message ends with exactly one Order
row (and an uncarried key with none); the duplicate—whether caught by the
pre-insert check or by the uniqueness-constraint handler—is discarded with no
error; and *no* ProcessingLog entry is written for it (zero, not one: the
duplicate skip is only console-logged). -/
theorem C1_po_uniqueness_amended :
    ∀ (msgs : List (Option Str)) (p : Option Str),
      countPo (processAll emptyDb msgs) p =
        (if msgs.any (fun m => decide (m = p)) then 1 else 0)
      ∧ (processAll emptyDb msgs).logs = []
      ∧ (∀ (db : DbState) (d : Option Str),
          db.orders.any (fun o => decide (o.po = d)) = true →
          processParsedMessage db d = db) := by
  intro msgs p
  refine ⟨?_, ?_, fun db d h => processParsed_skip db d h⟩
  · rw [processAll_count msgs emptyDb p]
    have : countPo emptyDb p = 0 := rfl
    simp [this]
  · rw [processAll_logs msgs emptyDb]
    rfl

/-- C1 witness: the duplicate pair `"22121"` instantiates the amended claim. -/
theorem C1_witness :
    countPo (processAll emptyDb [some (("22121").data), some (("22121").data)])
        (some (("22121").data)) =
      (if ([some (("22121").data), some (("22121").data)]).any
          (fun m => decide (m = some (("22121").data))) then 1 else 0)
    ∧ (processAll emptyDb [some (("22121").data), some (("22121").data)]).logs = []
    ∧ (processAll emptyDb [some (("22121").data), some (("22121").data)]).orders.any
        (fun o => decide (o.po = some (("22121").data))) = true
    ∧ processParsedMessage
        (processAll emptyDb [some (("22121").data), some (("22121").data)])
        (some (("22121").data)) =
      processAll emptyDb [some (("22121").data), some (("22121").data)] := by
  have h := C1_po_uniqueness_amended
    [some (("22121").data), some (("22121").data)] (some (("22121").data))
  exact ⟨h.1, h.2.1, by decide, h.2.2 _ _ (by decide)⟩

/-- C2 (failing input): a batch of two allowed messages with PO numbers `A1`
and `B2`.  Because the per-message block sits after the fetch loop (and reads
the loop variable `e_id` post-loop), only the last fetched message is parsed
and persisted: `A1` is never created, `B2` is. -/
theorem C2_only_last_message_processed :
    countPo
      (monitorBatch (("sender@example.com").data) emptyDb
        [some ⟨(("Orders <sender@example.com>").data), (("PO Number: A1\n").data)⟩,
         some ⟨(("Orders <sender@example.com>").data), (("PO Number: B2\n").data)⟩] 0)
      (some (("A1").data)) = 0
    ∧ countPo
        (monitorBatch (("sender@example.com").data) emptyDb
          [some ⟨(("Orders <sender@example.com>").data), (("PO Number: A1\n").data)⟩,
           some ⟨(("Orders <sender@example.com>").data), (("PO Number: B2\n").data)⟩] 0)
        (some (("B2").data)) = 1 := by
  refine ⟨by decide, by decide⟩

/-- What the context loop computes, in closed form: the text of the last
ancestor among the first five (or the initial value when there is none). -/
theorem ctxLoop_closed (anc : List Node) : ∀ (n : Nat) (init : Str),
    ctxLoop anc n init =
      match (anc.take n).getLast? with
      | some p => textsF p
      | none => init := by
  induction anc with
  | nil => intro n init; cases n <;> rfl
  | cons p rest ih =>
    intro n init
    cases n with
    | zero => rfl
    | succ n =>
      show ctxLoop rest n (textsF p) = _
      rw [ih n (textsF p), List.take_succ_cons]
      cases htn : rest.take n with
      | nil => rfl
      | cons b l2 =>
        rw [List.getLast?_cons_cons]
        have hsome : (b :: l2).getLast?.isSome = true := by
          rw [List.getLast?_isSome]
          simp
        obtain ⟨q, hq⟩ := Option.isSome_iff_exists.mp hsome
        rw [hq]

/-- A document with a download link two elements deep: the outer `div` holds
text `A` and an inner `div`, which holds text `B` and the `<a href="u">` link
whose text is `Download`. -/
def sampleDoc : Node :=
  .elem (("div").data) none
    (.textNode (("A").data)
      (.elem (("div").data) none
        (.textNode (("B").data)
          (.elem (("a").data) (some (("u").data))
            (.textNode (("Download").data) .nil) .nil))
        .nil))
    .nil

/-- C6 (counterexample): the claim fails as stated.  On `sampleDoc` the code's
context is `"ABDownload"` — the text of the *outermost* ancestor alone, because
each loop iteration overwrites `context` — whereas the specified concatenation
of ancestor texts closest-first would read `"BDownloadABDownloadABDownload"`. -/
theorem C6_counterexample :
    extractDownloadUrls (some sampleDoc) =
      [⟨("u").data, ("Download").data, ("ABDownload").data⟩]
    ∧ extractDownloadUrlsSpec (some sampleDoc) =
      [⟨("u").data, ("Download").data, ("BDownloadABDownloadABDownload").data⟩]
    ∧ extractDownloadUrls (some sampleDoc) ≠ extractDownloadUrlsSpec (some sampleDoc) := by
  refine ⟨by decide, by decide, by decide⟩

/-- C6 (amended): link discovery returns one entry per hyperlink whose visible
text contains the case-insensitive substring "download" (a missing or malformed
body yields the empty list, never an error), and each entry's context field is
the text of the *last* of up to five ancestors walked outward from the link —
the fifth ancestor, or the outermost one when fewer than five exist — not a
concatenation: each loop iteration overwrites the previous text. -/
theorem C6_download_links_amended :
    extractDownloadUrls none = []
    ∧ ∀ (root : Node),
        extractDownloadUrls (some root) =
          (collectLinks [root] root).filterMap fun l =>
            if containsSub (("download").data) (lowerStr l.linkText) then
              some ⟨l.href, l.linkText, lastAncestorText l.ancestors⟩
            else none := by
  refine ⟨rfl, ?_⟩
  intro root
  have hred : extractDownloadUrls (some root) =
      (collectLinks [root] root).filterMap fun l =>
        if containsSub (("download").data) (lowerStr l.linkText) then
          some ⟨l.href, l.linkText, ctxLoop l.ancestors 5 []⟩
        else none := rfl
  rw [hred]
  congr 1
  funext l
  rw [ctxLoop_closed l.ancestors 5 []]
  unfold lastAncestorText
  rfl

end Moretranz

